import Mathlib

/-!
Verification of the smart-trendz core logic: a shallow embedding of the
urgency/balance calculator, the order number generator, the branch access
policy, the payment recording route, the weekly payment aggregation route
and the activity logger, together with theorems settling the spec's claims.

Sources embedded:
* `src/src/lib/utils.ts` — urgency tiers, urgency labels, order numbers;
* `src/unnamed/part_018` — branch access policy;
* `src/tailor-shop/src/app/api/payments/route.ts` — payment listing/recording;
* `src/unnamed/part_014` — weekly payment report aggregation;
* `src/tailor-shop/src/lib/activity-log.ts` — activity logger.

JavaScript numbers holding money are modelled as rationals (`ℚ`), dates as a
calendar-day index plus a time-of-day offset, and nullable values as
`Option`. JavaScript string primitives used by the code (`split`,
`startsWith`, `parseInt`, `padStart`) are modelled structurally over
`List Char` so that they compute.
-/

/-! ## Urgency tiers (src/src/lib/utils.ts, getDueDateUrgency) -/

/-- The `DueDateUrgency` union type of `utils.ts`. -/
inductive DueDateUrgency
  | safe
  | warning5
  | warning3
  | warning1
  | overdue
deriving DecidableEq, Repr

/-- `getDueDateUrgency` of `utils.ts`, lines 44–52, as a function of the
integer day difference `days = calculateDaysToDue(dueDate)` (the calendar-day
difference between the due date and today, both normalized to midnight):
`if (days <= 0) return 'overdue'; if (days <= 1) return 'warning-1';
if (days <= 3) return 'warning-3'; if (days <= 5) return 'warning-5';
return 'safe';`. -/
def getDueDateUrgency (days : ℤ) : DueDateUrgency :=
  if days ≤ 0 then .overdue
  else if days ≤ 1 then .warning1
  else if days ≤ 3 then .warning3
  else if days ≤ 5 then .warning5
  else .safe

/-- `getUrgencyLabel` of `utils.ts`, lines 99–105: when the urgency is
`overdue`, `days === 0 ? 'Due Today' : Math.abs(days) + ' days overdue'`;
otherwise `days === 1` gives `'Due Tomorrow'` and anything else gives
`days + ' days left'`. -/
def getUrgencyLabel (urgency : DueDateUrgency) (days : ℤ) : String :=
  if urgency = .overdue then
    if days = 0 then "Due Today" else toString days.natAbs ++ " days overdue"
  else if days = 1 then "Due Tomorrow"
  else toString days ++ " days left"

/-! ## JavaScript string primitives

The order number generator uses `String.prototype.split`, `startsWith`,
`parseInt` and `padStart`. They are modelled structurally over the
character list of the string so that every use computes by `decide`. -/

/-- Split a character list at every occurrence of `sep`, keeping empty
pieces, as JavaScript `str.split(sep)` does. -/
def splitOnChar (sep : Char) : List Char → List (List Char)
  | [] => [[]]
  | c :: rest =>
    if c = sep then [] :: splitOnChar sep rest
    else
      match splitOnChar sep rest with
      | [] => [[c]]
      | h :: t => (c :: h) :: t

/-- JavaScript `s.split(sep)` for a one-character separator. -/
def splitJS (s : String) (sep : Char) : List String :=
  (splitOnChar sep s.data).map List.asString

/-- JavaScript `s.startsWith(p)`. -/
def startsWithJS (s p : String) : Bool :=
  p.data.isPrefixOf s.data

/-- JavaScript `parseInt(s)` on the non-negative inputs the order number
code feeds it: the longest digit run at the front of the string read in
base 10, and `none` (NaN) when the string starts with no digit. -/
def parseIntJS (s : String) : Option ℕ :=
  let ds := s.data.takeWhile Char.isDigit
  if ds.isEmpty then none
  else some (ds.foldl (fun acc c => 10 * acc + (c.toNat - '0'.toNat)) 0)

/-- JavaScript `s.padStart(4, '0')`: left-pad with zeros up to length 4;
a string already 4 characters or longer is returned unchanged (never
truncated). -/
def padStart4 (s : String) : String :=
  if 4 ≤ s.length then s
  else (List.replicate (4 - s.length) '0').asString ++ s

/-! ## Order number generator (src/src/lib/utils.ts, generateOrderNumber) -/

/-- `generateOrderNumber` of `utils.ts`, lines 157–168, with the current
year (read from `new Date().getFullYear()` in the source) passed as a
parameter: build the prefix `"T-" + year + "-"`; when the last issued
number is absent or does not start with that prefix, return the prefix
followed by `"0001"`; otherwise `parseInt` the piece after the second dash,
add one, `padStart(4, '0')` the decimal rendering and append it to the
prefix. A NaN from `parseInt` renders as `"NaN"` and is padded like any
other string, as in JavaScript. -/
def generateOrderNumber (lastOrderNumber : Option String) (year : ℕ) : String :=
  let pfx := "T-" ++ toString year ++ "-"
  match lastOrderNumber with
  | none => pfx ++ "0001"
  | some last =>
    if startsWithJS last pfx then
      match parseIntJS ((splitJS last '-').getD 2 "") with
      | some n => pfx ++ padStart4 (toString (n + 1))
      | none => pfx ++ padStart4 "NaN"
    else pfx ++ "0001"

/-! ## Branch access policy (src/unnamed/part_018) -/

/-- The `SessionUser` interface of the branch utilities: the authenticated
user descriptor `{id, name, email, role, branchId?, branchName?}`, where
`role` is one of the strings `'ADMIN' | 'STAFF' | 'VIEWER'` and the branch
fields may be null or absent. -/
structure SessionUser where
  id : String
  name : String
  email : String
  role : String
  branchId : Option String
  branchName : Option String
deriving DecidableEq, Repr

/-- `resolveBranchId(sessionUser, bodyBranchId)` of the branch utilities,
lines 25–38: an ADMIN gets `bodyBranchId ?? sessionUser.branchId ?? null`;
everyone else gets `sessionUser.branchId ?? null`, the requested branch
being ignored. -/
def resolveBranchId (sessionUser : SessionUser) (bodyBranchId : Option String) :
    Option String :=
  if sessionUser.role = "ADMIN" then
    match bodyBranchId with
    | some b => some b
    | none => sessionUser.branchId
  else sessionUser.branchId

/-- `hasAccessToBranch(sessionUser, targetBranchId)` of the branch
utilities, lines 47–60: an ADMIN always has access; everyone else has
access exactly when their assigned `branchId` strictly equals the target. -/
def hasAccessToBranch (sessionUser : SessionUser) (targetBranchId : String) : Bool :=
  if sessionUser.role = "ADMIN" then true
  else sessionUser.branchId == some targetBranchId

/-- `buildBranchFilter(sessionUser)` of the branch utilities, lines 68–82:
an ADMIN gets the empty filter (`ok none` here, `{}` in the source); a
non-admin whose `branchId` is falsy (null, absent or the empty string)
makes it throw `'User not assigned to a branch'`; otherwise the filter
constrains `branchId` to the user's own branch. -/
def buildBranchFilter (sessionUser : SessionUser) : Except String (Option String) :=
  if sessionUser.role = "ADMIN" then .ok none
  else if sessionUser.branchId.getD "" = "" then .error "User not assigned to a branch"
  else .ok sessionUser.branchId

/-! ## Payment recording (src/tailor-shop/src/app/api/payments/route.ts, POST) -/

/-- An order row as the payments route reads it: its id, its stored
`totalAmount` and the amounts of its already-recorded payments (the route's
`include: { payments: true }`). -/
structure OrderRec where
  id : String
  totalAmount : ℚ
  payments : List ℚ
deriving DecidableEq, Repr

/-- The error responses of `POST /api/payments`: the 400 `'Order ID and
valid amount are required'`, the 404 `'Order not found'` and the 400
`'Payment amount exceeds outstanding balance'`. -/
inductive PaymentError
  | invalidRequest
  | orderNotFound
  | exceedsBalance
deriving DecidableEq, Repr

deriving instance DecidableEq for Except

/-- `POST /api/payments` (payments route, lines 54–106) over a database
modelled as the list of orders with their payments: reject when the order
id is falsy or the amount is falsy or non-positive
(`!orderId || !amount || amount <= 0`); 404 when `findUnique` finds no
order; recompute `totalPaid` by reducing over the order's payments and
reject when the amount exceeds `totalAmount - totalPaid`; otherwise append
the payment to the order. Returns the route's result together with the
database after the call (unchanged on every error). -/
def paymentsPOST (db : List OrderRec) (orderId : Option String) (amount : ℚ) :
    Except PaymentError OrderRec × List OrderRec :=
  let oid := orderId.getD ""
  if oid = "" ∨ amount = 0 ∨ amount ≤ 0 then (.error .invalidRequest, db)
  else
    match db.find? (fun o => o.id == oid) with
    | none => (.error .orderNotFound, db)
    | some order =>
      let totalPaid := order.payments.foldl (· + ·) 0
      let balance := order.totalAmount - totalPaid
      if balance < amount then (.error .exceedsBalance, db)
      else
        let updated : OrderRec := { order with payments := order.payments ++ [amount] }
        (.ok updated, db.map (fun o => if o.id == oid then updated else o))

/-! ## Dates and payment rows for the listing and report routes

A stored timestamp is modelled as the index of its calendar day (what
`format(date, 'yyyy-MM-dd')` renders, after the local-midnight
normalization both routes use) together with the time of day within that
day. -/

/-- A point in time: calendar day index plus time-of-day offset. Two
timestamps fall on the same `'yyyy-MM-dd'` string exactly when their `day`
fields agree. -/
structure DateTime where
  day : ℤ
  timeOfDay : ℕ
deriving DecidableEq, Repr

/-- Chronological order on timestamps. -/
def DateTime.le (a b : DateTime) : Prop :=
  a.day < b.day ∨ (a.day = b.day ∧ a.timeOfDay ≤ b.timeOfDay)

instance (a b : DateTime) : Decidable (a.le b) := by
  unfold DateTime.le; infer_instance

/-- A payment row as the listing and report routes read it, with the data
of the `include`d order that matters to branch scoping: `orderBranchId` is
the `branchId` of the payment's order. -/
structure PaymentRow where
  id : String
  orderId : String
  amount : ℚ
  paymentDate : DateTime
  paymentMethod : String
  orderBranchId : String
deriving DecidableEq, Repr

/-! ## Payment listing (src/tailor-shop/src/app/api/payments/route.ts, GET) -/

/-- `GET /api/payments` (payments route, lines 12–48) over the payments
table: keep the rows matching the optional `orderId` filter and the
optional inclusive `[startDate, endDate]` range on `paymentDate`. The
route reads no session and spreads no branch condition into the `where`
clause, so the result is not branch-scoped; the `orderBy: paymentDate
desc` ordering is not modelled (no claim depends on it). -/
def paymentsGET (db : List PaymentRow) (orderId : Option String)
    (range : Option (DateTime × DateTime)) : List PaymentRow :=
  db.filter fun p =>
    (match orderId with
     | some oid => p.orderId == oid
     | none => true) &&
    (match range with
     | some (s, e) => decide (s.le p.paymentDate) && decide (p.paymentDate.le e)
     | none => true)

/-! ## Weekly payment report (src/unnamed/part_014, GET /api/reports/weekly-payments) -/

/-- `eachDayOfInterval({start, end})` of date-fns as the report route uses
it: one entry per calendar day from the start date's day through the end
date's day, empty when the end day precedes the start day. -/
def eachDayOfInterval (s e : DateTime) : List ℤ :=
  (List.range (e.day - s.day + 1).toNat).map fun i : ℕ => s.day + (i : ℤ)

/-- One element of the route's `byDay` array: the bucket's calendar day
(the source renders it as `date`/`dayName` strings), the sum and count of
the payments that fall on that day, and those payments themselves. -/
structure DayBucket where
  day : ℤ
  total : ℚ
  count : ℕ
  payments : List PaymentRow
deriving DecidableEq, Repr

/-- The bucket the route builds for one day `d` of the interval:
`dayPayments` is the fetched payments whose `paymentDate` formats to the
same `'yyyy-MM-dd'` as the day (same calendar day, time of day ignored),
`total` reduces their amounts and `count` is their number. -/
def dayBucketFor (ps : List PaymentRow) (d : ℤ) : DayBucket :=
  let dayPayments := ps.filter fun p => p.paymentDate.day == d
  ⟨d, dayPayments.foldl (fun acc p => acc + p.amount) 0, dayPayments.length, dayPayments⟩

/-- The report route's fetch (lines 29–44): all payments with
`paymentDate` in the inclusive range `[startDate, endDate]`. Like the
payment listing, it applies no branch filter. -/
def weeklyFetch (db : List PaymentRow) (s e : DateTime) : List PaymentRow :=
  db.filter fun p => decide (s.le p.paymentDate) && decide (p.paymentDate.le e)

/-- The report route's `byDay` array (lines 61–75): one bucket per day of
`eachDayOfInterval({start, end})`, each built from the fetched payments. -/
def weeklyByDay (db : List PaymentRow) (s e : DateTime) : List DayBucket :=
  (eachDayOfInterval s e).map (dayBucketFor (weeklyFetch db s e))

/-- The report route's `totalAmount` (line 47): reduce the fetched
payments' amounts. -/
def weeklyTotalAmount (db : List PaymentRow) (s e : DateTime) : ℚ :=
  (weeklyFetch db s e).foldl (fun acc p => acc + p.amount) 0

/-! ## Activity logger (src/tailor-shop/src/lib/activity-log.ts) -/

/-- `ActivityAction` of `activity-log.ts`. -/
inductive ActivityAction
  | CREATE
  | UPDATE
  | DELETE
deriving DecidableEq, Repr

/-- `ActivityEntity` of `activity-log.ts`. -/
inductive ActivityEntity
  | ORDER
  | CUSTOMER
  | PAYMENT
  | USER
deriving DecidableEq, Repr

/-- `LogActivityParams` of `activity-log.ts` (the opaque `metadata`
payload is not modelled). -/
structure LogActivityParams where
  userId : String
  userName : String
  branchId : String
  action : ActivityAction
  entity : ActivityEntity
  entityId : Option String
  description : String
deriving DecidableEq, Repr

/-- What `logActivity` leaves behind besides returning: the message it
`console.error`s when the write failed, if any. -/
structure LogOutcome where
  localError : Option String
deriving DecidableEq, Repr

/-- `logActivity(params)` of `activity-log.ts`, lines 20–38, with the
persistence collaborator (`prisma.activityLog.create`) passed in as a
function from the entry to its write outcome: the whole body sits in a
`try`/`catch` whose handler only logs the failure locally, so both the
successful and the failed write return normally (`Except.ok`) and nothing
is rethrown. -/
def logActivity (create : LogActivityParams → Except String Unit)
    (params : LogActivityParams) : Except String LogOutcome :=
  match create params with
  | .ok _ => .ok ⟨none⟩
  | .error e => .ok ⟨some ("Failed to log activity: " ++ e)⟩

/-- The calling pattern of every mutating route (orders, customers,
payments, users): perform the business operation, then `await
logActivity(...)`, propagating an exception from either step. The
business result is the response. -/
def businessThenLog {α : Type} (opResult : Except String α)
    (create : LogActivityParams → Except String Unit)
    (params : LogActivityParams) : Except String α :=
  match opResult with
  | .error e => .error e
  | .ok a =>
    match logActivity create params with
    | .ok _ => .ok a
    | .error e => .error e

/-! ## Helper lemmas -/

/-- Reducing with `+` from an initial accumulator is the initial value plus
the list sum. -/
theorem foldl_add_eq_sum (l : List ℚ) (x : ℚ) : l.foldl (· + ·) x = x + l.sum := by
  induction l generalizing x with
  | nil => simp
  | cons a t ih => rw [List.foldl_cons, ih, List.sum_cons]; ring

/-! ## Claim theorems -/

/-- C2: the urgency function is total over the integers and partitions them
exactly at the spec's cut points: `days ≤ 0` is overdue, `days = 1` is
warning-1, `2 ≤ days ≤ 3` is warning-3, `4 ≤ days ≤ 5` is warning-5 and
`6 ≤ days` is safe; in particular 3 is warning-3, 5 is warning-5 and 6 is
safe. -/
theorem getDueDateUrgency_partition :
    (∀ days : ℤ, getDueDateUrgency days = .overdue ↔ days ≤ 0) ∧
    (∀ days : ℤ, getDueDateUrgency days = .warning1 ↔ days = 1) ∧
    (∀ days : ℤ, getDueDateUrgency days = .warning3 ↔ 2 ≤ days ∧ days ≤ 3) ∧
    (∀ days : ℤ, getDueDateUrgency days = .warning5 ↔ 4 ≤ days ∧ days ≤ 5) ∧
    (∀ days : ℤ, getDueDateUrgency days = .safe ↔ 6 ≤ days) ∧
    getDueDateUrgency 0 = .overdue ∧
    getDueDateUrgency 1 = .warning1 ∧
    getDueDateUrgency 3 = .warning3 ∧
    getDueDateUrgency 5 = .warning5 ∧
    getDueDateUrgency 6 = .safe := by
  refine ⟨?_, ?_, ?_, ?_, ?_, by decide, by decide, by decide, by decide, by decide⟩ <;>
    intro d <;> unfold getDueDateUrgency <;> split_ifs <;> simp_all <;> omega

/-- C8 counterexample: at urgency `overdue` with `daysToDue = 1` the code
returns "1 days overdue", not the "Due Tomorrow" the claim's
`daysToDue = 1` clause promises for every urgency value. -/
theorem getUrgencyLabel_overdue_one_cex :
    getUrgencyLabel .overdue 1 = "1 days overdue" ∧
    getUrgencyLabel .overdue 1 ≠ "Due Tomorrow" := by decide

/-- C8 (amended): the overdue branch takes priority — "Due Today" when
overdue with `daysToDue = 0`, "`<n>` days overdue" (n the absolute value)
when overdue with any nonzero `daysToDue`, and only for non-overdue
urgencies "Due Tomorrow" when `daysToDue = 1` and "`<daysToDue>` days
left" otherwise. On consistent inputs (urgency derived from `daysToDue`)
this coincides with the original claim. -/
theorem getUrgencyLabel_cases (u : DueDateUrgency) (d : ℤ) :
    (u = .overdue ∧ d = 0 → getUrgencyLabel u d = "Due Today") ∧
    (u = .overdue ∧ d ≠ 0 → getUrgencyLabel u d = toString d.natAbs ++ " days overdue") ∧
    (u ≠ .overdue ∧ d = 1 → getUrgencyLabel u d = "Due Tomorrow") ∧
    (u ≠ .overdue ∧ d ≠ 1 → getUrgencyLabel u d = toString d ++ " days left") := by
  unfold getUrgencyLabel
  refine ⟨?_, ?_, ?_, ?_⟩ <;> rintro ⟨h1, h2⟩ <;> simp [h1, h2]

/-- C5: `generateOrderNumber` returns `"T-<year>-0001"` when no last
number exists or the last number does not carry the current year's
prefix, and otherwise parses the numeric piece after the second dash,
adds one, zero-pads to four digits and appends it to the prefix; in
particular `T-2025-0042` yields `T-2025-0043`, and `T-2024-9999` in 2025
resets to `T-2025-0001`. -/
theorem generateOrderNumber_spec (year n : ℕ) (last : String) :
    generateOrderNumber none year = "T-" ++ toString year ++ "-" ++ "0001" ∧
    (startsWithJS last ("T-" ++ toString year ++ "-") = false →
      generateOrderNumber (some last) year = "T-" ++ toString year ++ "-" ++ "0001") ∧
    (startsWithJS last ("T-" ++ toString year ++ "-") = true →
      parseIntJS ((splitJS last '-').getD 2 "") = some n →
      generateOrderNumber (some last) year =
        "T-" ++ toString year ++ "-" ++ padStart4 (toString (n + 1))) ∧
    generateOrderNumber (some "T-2025-0042") 2025 = "T-2025-0043" ∧
    generateOrderNumber (some "T-2024-9999") 2025 = "T-2025-0001" ∧
    generateOrderNumber none 2025 = "T-2025-0001" := by
  refine ⟨rfl, fun h => ?_, fun h hp => ?_, by decide, by decide, by decide⟩
  · simp [generateOrderNumber, h]
  · simp only [List.getD, List.get?_eq_getElem?] at hp
    simp [generateOrderNumber, h, hp]

/-- C10: when the last issued number for the current year is
`T-2025-9999`, the generator widens to the five-digit `T-2025-10000`
rather than wrapping or failing, because `padStart(4, '0')` never
truncates a longer rendering. -/
theorem generateOrderNumber_widens_past_9999 :
    generateOrderNumber (some "T-2025-9999") 2025 = "T-2025-10000" ∧
    padStart4 (toString (9999 + 1)) = "10000" := by decide

/-- C6: `resolveBranchId` gives an ADMIN the requested branch when one is
provided and the admin's own (possibly null) branch otherwise; every
non-admin gets their own branch unconditionally — a STAFF user assigned
to "B1" requesting "B2" gets "B1", never "B2". -/
theorem resolveBranchId_spec (u : SessionUser) (req : Option String) :
    (u.role = "ADMIN" →
      resolveBranchId u req = (match req with | some b => some b | none => u.branchId)) ∧
    (u.role ≠ "ADMIN" → resolveBranchId u req = u.branchId) ∧
    resolveBranchId ⟨"u1", "Ama", "ama@shop.test", "STAFF", some "B1", some "Main"⟩
      (some "B2") = some "B1" ∧
    resolveBranchId ⟨"u1", "Ama", "ama@shop.test", "STAFF", some "B1", some "Main"⟩
      (some "B2") ≠ some "B2" := by
  refine ⟨fun h => ?_, fun h => ?_, by decide, by decide⟩ <;> simp [resolveBranchId, h]

/-- C3: whenever the payment route answers with a created payment, the
order it returns satisfies the balance invariant — the recomputed sum of
its payment amounts does not exceed its `totalAmount` — because the
route checks the new amount against `totalAmount` minus the sum it
recomputes from the stored payments at creation time. -/
theorem paymentsPOST_balance_invariant (db : List OrderRec) (orderId : Option String)
    (amount : ℚ) (order' : OrderRec)
    (h : (paymentsPOST db orderId amount).1 = .ok order') :
    order'.payments.foldl (· + ·) 0 ≤ order'.totalAmount := by
  simp only [paymentsPOST] at h
  split at h
  · simp at h
  · split at h
    · simp at h
    · rename_i order hfind
      split at h
      · simp at h
      · rename_i hbal
        simp only [Prod.fst] at h
        rw [Except.ok.injEq] at h
        subst h
        push_neg at hbal
        rw [foldl_add_eq_sum] at hbal ⊢
        simp only [List.sum_append, List.sum_cons, List.sum_nil] at *
        linarith

/-- C3 witness: recording 150 against an order of 450 with 300 already
paid succeeds and the returned order satisfies the invariant. -/
theorem paymentsPOST_balance_invariant_witness :
    (paymentsPOST [⟨"o1", 450, [200, 100]⟩] (some "o1") 150).1 =
      .ok ⟨"o1", 450, [200, 100, 150]⟩ ∧
    (⟨"o1", 450, [200, 100, 150]⟩ : OrderRec).payments.foldl (· + ·) 0 ≤
      (⟨"o1", 450, [200, 100, 150]⟩ : OrderRec).totalAmount := by
  have hok : (paymentsPOST [⟨"o1", 450, [200, 100]⟩] (some "o1") 150).1 =
      .ok ⟨"o1", 450, [200, 100, 150]⟩ := by
    norm_num +decide [paymentsPOST, List.find?, List.foldl, List.map]
  exact ⟨hok, paymentsPOST_balance_invariant _ _ _ _ hok⟩

/-- C4: with a present order id and the order found, the route rejects a
non-positive amount as an invalid request, rejects with "exceeds balance"
exactly when the amount is strictly greater than `totalAmount` minus the
sum of the existing payments, leaves the database unchanged on every
error, and accepts an amount exactly equal to the remaining balance,
appending the payment and leaving a derived balance of zero. -/
theorem paymentsPOST_validation (db : List OrderRec) (oid : String) (amount : ℚ)
    (order : OrderRec) (hoid : ¬oid = "")
    (hfind : db.find? (fun o => o.id == oid) = some order) :
    (amount ≤ 0 → paymentsPOST db (some oid) amount = (.error .invalidRequest, db)) ∧
    (0 < amount →
      ((paymentsPOST db (some oid) amount).1 = .error .exceedsBalance ↔
        order.totalAmount - order.payments.foldl (· + ·) 0 < amount)) ∧
    (∀ e, (paymentsPOST db (some oid) amount).1 = .error e →
      (paymentsPOST db (some oid) amount).2 = db) ∧
    (0 < amount → amount = order.totalAmount - order.payments.foldl (· + ·) 0 →
      paymentsPOST db (some oid) amount =
        (.ok { order with payments := order.payments ++ [amount] },
          db.map fun o =>
            if o.id == oid then { order with payments := order.payments ++ [amount] }
            else o) ∧
      ({ order with payments := order.payments ++ [amount] } : OrderRec).totalAmount -
        ({ order with payments := order.payments ++ [amount] } : OrderRec).payments.foldl
          (· + ·) 0 = 0) := by
  refine ⟨fun hle => ?_, fun hpos => ?_, fun e he => ?_, fun hpos heq => ?_⟩
  · simp [paymentsPOST, hoid, hle]
  · have hcond : ¬(oid = "" ∨ amount = 0 ∨ amount ≤ 0) := by
      push_neg
      exact ⟨hoid, by linarith, by linarith⟩
    by_cases hbal : order.totalAmount - order.payments.foldl (· + ·) 0 < amount <;>
      simp [paymentsPOST, hcond, hfind, hbal]
  · by_cases hc : (oid = "" ∨ amount = 0 ∨ amount ≤ 0)
    · simp [paymentsPOST, hc]
    · by_cases hbal : order.totalAmount - order.payments.foldl (· + ·) 0 < amount
      · simp [paymentsPOST, hc, hfind, hbal]
      · exfalso
        simp [paymentsPOST, hc, hfind, hbal] at he
  · have hcond : ¬(oid = "" ∨ amount = 0 ∨ amount ≤ 0) := by
      push_neg
      exact ⟨hoid, by linarith, by linarith⟩
    have hbal : ¬(order.totalAmount - order.payments.foldl (· + ·) 0 < amount) := by
      rw [← heq]
      exact lt_irrefl amount
    refine ⟨by simp [paymentsPOST, hcond, hfind, hbal], ?_⟩
    simp only []
    rw [foldl_add_eq_sum] at heq ⊢
    simp only [List.sum_append, List.sum_cons, List.sum_nil] at *
    linarith

/-- C4 witness: the spec's end-to-end scenario — an order of 450 with
payments 200 and 100 accepts a further payment of exactly 150 (the
remaining balance) and the resulting derived balance is zero. -/
theorem paymentsPOST_validation_witness :
    paymentsPOST [⟨"o1", 450, [200, 100]⟩] (some "o1") 150 =
      (.ok ⟨"o1", 450, [200, 100] ++ [150]⟩,
        [(⟨"o1", 450, [200, 100]⟩ : OrderRec)].map fun o =>
          if o.id == "o1" then ⟨"o1", 450, [200, 100] ++ [150]⟩ else o) ∧
    ((⟨"o1", 450, [200, 100] ++ [150]⟩ : OrderRec).totalAmount -
      (⟨"o1", 450, [200, 100] ++ [150]⟩ : OrderRec).payments.foldl (· + ·) 0 = 0) :=
  (paymentsPOST_validation [⟨"o1", 450, [200, 100]⟩] "o1" 150 ⟨"o1", 450, [200, 100]⟩
    (by decide) rfl).2.2.2 (by norm_num) (by norm_num [List.foldl])

/-- C1: the payment listing applies no branch scoping — with the database
holding a payment whose order belongs to branch "B2", the unfiltered
`GET /api/payments` returns that payment although a STAFF user assigned
to branch "B1" fails `hasAccessToBranch` for "B2" and their
`buildBranchFilter` would constrain results to "B1". The route consults
no session and spreads no branch condition into its `where` clause, so
the claimed scoping never runs. -/
theorem paymentsGET_returns_cross_branch_payment :
    paymentsGET [⟨"p2", "o2", 50, ⟨0, 0⟩, "CASH", "B2"⟩] none none =
      [⟨"p2", "o2", 50, ⟨0, 0⟩, "CASH", "B2"⟩] ∧
    hasAccessToBranch
      ⟨"u1", "Staff", "staff@shop.test", "STAFF", some "B1", some "Main"⟩ "B2" = false ∧
    buildBranchFilter
      ⟨"u1", "Staff", "staff@shop.test", "STAFF", some "B1", some "Main"⟩ =
      .ok (some "B1") :=
  ⟨rfl, rfl, rfl⟩

/-- C7: the report's `byDay` array has exactly one bucket per calendar day
of the inclusive range — the bucket days are exactly the days between the
start and end days, without duplicates, `(end − start + 1)` of them — a
day none of the fetched payments falls on gets count 0 and total 0, and a
payment lands in a bucket exactly when the calendar-day component of its
`paymentDate` is the bucket's day, its time of day playing no part.
Concretely, a 7-day range with payments only on days 3 and 5 yields 7
buckets, 5 of them with count 0. -/
theorem weeklyByDay_spec (db : List PaymentRow) (s e : DateTime) :
    ((weeklyByDay db s e).map DayBucket.day).Nodup ∧
    (∀ d : ℤ, d ∈ (weeklyByDay db s e).map DayBucket.day ↔ s.day ≤ d ∧ d ≤ e.day) ∧
    (weeklyByDay db s e).length = (e.day - s.day + 1).toNat ∧
    (∀ b ∈ weeklyByDay db s e,
      (∀ p ∈ weeklyFetch db s e, p.paymentDate.day ≠ b.day) → b.count = 0 ∧ b.total = 0) ∧
    (∀ b ∈ weeklyByDay db s e, ∀ p : PaymentRow,
      p ∈ b.payments ↔ p ∈ weeklyFetch db s e ∧ p.paymentDate.day = b.day) ∧
    (weeklyByDay
      [⟨"p1", "o1", 120, ⟨3, 50000⟩, "CASH", "B1"⟩,
       ⟨"p2", "o2", 80, ⟨5, 60⟩, "MOMO", "B1"⟩] ⟨0, 600⟩ ⟨6, 0⟩).length = 7 ∧
    ((weeklyByDay
      [⟨"p1", "o1", 120, ⟨3, 50000⟩, "CASH", "B1"⟩,
       ⟨"p2", "o2", 80, ⟨5, 60⟩, "MOMO", "B1"⟩] ⟨0, 600⟩ ⟨6, 0⟩).filter
        fun b => b.count == 0).length = 5 := by
  have hmap : (weeklyByDay db s e).map DayBucket.day = eachDayOfInterval s e := by
    unfold weeklyByDay
    rw [List.map_map]
    have hfun : DayBucket.day ∘ dayBucketFor (weeklyFetch db s e) = id :=
      funext fun d => rfl
    rw [hfun, List.map_id]
  refine ⟨?_, ?_, ?_, ?_, ?_, by decide, by decide⟩
  · rw [hmap]
    unfold eachDayOfInterval
    refine List.Nodup.map ?_ (List.nodup_range _)
    intro a b hab
    dsimp only at hab
    omega
  · intro d
    rw [hmap]
    unfold eachDayOfInterval
    simp only [List.mem_map, List.mem_range]
    constructor
    · rintro ⟨i, hi, rfl⟩
      constructor <;> omega
    · rintro ⟨h1, h2⟩
      exact ⟨(d - s.day).toNat, by omega, by omega⟩
  · simp only [weeklyByDay, eachDayOfInterval, List.length_map, List.length_range]
  · intro b hb hnone
    obtain ⟨d, _, rfl⟩ := List.mem_map.mp hb
    have hfil : (weeklyFetch db s e).filter (fun p => p.paymentDate.day == d) = [] := by
      rw [List.filter_eq_nil_iff]
      intro p hp
      simpa using hnone p hp
    simp [dayBucketFor, hfil]
  · intro b hb p
    obtain ⟨d, _, rfl⟩ := List.mem_map.mp hb
    simp [dayBucketFor, List.mem_filter]

/-- C9: `logActivity` returns normally for every outcome of the
underlying audit write — the failure is absorbed inside its
`try`/`catch` — so a business operation followed by `logActivity`
produces exactly the business operation's own result, whatever happened
to the audit record. -/
theorem logActivity_never_propagates (create : LogActivityParams → Except String Unit)
    (params : LogActivityParams) :
    (∃ out, logActivity create params = .ok out) ∧
    (∀ (α : Type) (opResult : Except String α),
      businessThenLog opResult create params = opResult) := by
  constructor
  · unfold logActivity
    cases create params with
    | ok u => exact ⟨⟨none⟩, rfl⟩
    | error e => exact ⟨⟨some ("Failed to log activity: " ++ e)⟩, rfl⟩
  · intro α opResult
    cases opResult with
    | error e => rfl
    | ok a =>
      unfold businessThenLog logActivity
      cases create params <;> rfl
